import Mathlib

/-!
Verification of the event-routing and window-stacking core of `src/screen.cpp`
(nanogui, SDL port).  The C++ member functions of `Screen` are embedded as pure
Lean functions over an explicit screen state; widget-tree behaviour that lives
outside the excerpt (hit test, per-widget callbacks, the focused flag) is
abstracted as oracle functions carried in an environment record.  Machine
pointers are modelled as natural-number identities; a null pointer is `none`.
-/

set_option linter.unusedVariables false

namespace NanoguiScreen

/-- A child of the screen as seen by the window stacker: its pointer identity,
whether it is a `Popup` (the `dynamic_cast<Popup *>` test), and for popups the
pointer identity of the `parentWindow()` back-reference. -/
structure Child where
  id : Nat
  isPopup : Bool
  parentWin : Nat
deriving DecidableEq, Repr

/-- Lines 650-651 of `Screen::moveWindowToFront`: erase/remove the window from
`mChildren`, then `push_back` it at the end (front-most position). -/
def bringToFront (cs : List Child) (w : Child) : List Child :=
  cs.filter (fun c => decide (c.id ≠ w.id)) ++ [w]

/-- The `baseIndex` scan (lines 655-658): the loop leaves in `baseIndex` the
last index whose element is `window`, or 0 when the window is absent. -/
def lastIndexAux (wid : Nat) : List Child → Nat → Nat → Nat
  | [], _, acc => acc
  | c :: rest, i, acc => lastIndexAux wid rest (i + 1) (if c.id = wid then i else acc)

/-- `baseIndex` for a given child list and window identity. -/
def baseIndexOf (cs : List Child) (wid : Nat) : Nat :=
  lastIndexAux wid cs 0 0

/-- The inner scan of `Screen::moveWindowToFront` (lines 660-667): the first
child that is a `Popup`, whose `parentWindow()` is the window being raised and
whose index is still below `baseIndex`. -/
def findOffending (cs : List Child) (wid : Nat) (base : Nat) : Option Child :=
  (cs.take base).find? (fun c => c.isPopup && decide (c.parentWin = wid))

mutual

/-- `Screen::moveWindowToFront`, fuel-indexed: the C++ function recurses into
itself with no cap, so a `none` result means the recursion did not complete
within `fuel` steps; `none` for every fuel is genuine divergence. -/
def moveWindowToFront : Nat → List Child → Child → Option (List Child)
  | 0, _, _ => none
  | Nat.succ f, cs, w => mwtfLoop f (bringToFront cs w) w

/-- The do/while loop of `Screen::moveWindowToFront` (lines 654-668): find an
offending popup behind the window, recursively raise it, restart. -/
def mwtfLoop : Nat → List Child → Child → Option (List Child)
  | 0, _, _ => none
  | Nat.succ f, cs, w =>
    match findOffending cs w.id (baseIndexOf cs w.id) with
    | none => some cs
    | some pw =>
      match moveWindowToFront f cs pw with
      | none => none
      | some cs2 => mwtfLoop f cs2 w

end

/-- Index of the child with the given pointer identity in the child sequence. -/
def idxOf (cs : List Child) (cid : Nat) : Nat :=
  cs.findIdx (fun c => decide (c.id = cid))

/-! ### Window stacker lemmas -/

theorem bringToFront_perm (cs : List Child) (w : Child) (hw : w ∈ cs)
    (hnd : (cs.map Child.id).Nodup) : List.Perm (bringToFront cs w) cs := by
  induction cs with
  | nil => cases hw
  | cons c rest ih =>
    simp only [List.map_cons, List.nodup_cons] at hnd
    by_cases hcw : c.id = w.id
    · have hwc : w = c := by
        rcases List.mem_cons.mp hw with h | h
        · exact h
        · exact absurd (hcw ▸ List.mem_map_of_mem Child.id h) hnd.1
      subst hwc
      have hfc : (fun c => decide (c.id ≠ w.id)) w = false := by simp [hcw]
      have hrest : rest.filter (fun c => decide (c.id ≠ w.id)) = rest := by
        refine List.filter_eq_self.mpr (fun a ha => ?_)
        simp only [decide_eq_true_eq]
        intro hid
        exact hnd.1 (hid ▸ List.mem_map_of_mem Child.id ha)
      simp only [bringToFront, List.filter_cons, hfc, if_neg, hrest]
      exact List.perm_append_singleton w rest
    · have hw2 : w ∈ rest := by
        rcases List.mem_cons.mp hw with h | h
        · exact absurd (congrArg Child.id h.symm) hcw
        · exact h
      have hfc : (fun c => decide (c.id ≠ w.id)) c = true := by
        simp [hcw]
      simp only [bringToFront, List.filter_cons, hfc, if_pos, List.cons_append]
      exact List.Perm.cons c (ih hw2 hnd.2)

theorem mem_of_findOffending {cs : List Child} {wid base : Nat} {pw : Child}
    (h : findOffending cs wid base = some pw) : pw ∈ cs :=
  List.take_subset base cs (List.mem_of_find?_eq_some h)

theorem moveWindowToFront_zero (cs : List Child) (w : Child) :
    moveWindowToFront 0 cs w = none := rfl

theorem mwtfLoop_zero (cs : List Child) (w : Child) : mwtfLoop 0 cs w = none := rfl

theorem moveWindowToFront_succ (f : Nat) (cs : List Child) (w : Child) :
    moveWindowToFront (f + 1) cs w = mwtfLoop f (bringToFront cs w) w := rfl

theorem mwtfLoop_succ (f : Nat) (cs : List Child) (w : Child) :
    mwtfLoop (f + 1) cs w =
      (match findOffending cs w.id (baseIndexOf cs w.id) with
       | none => some cs
       | some pw =>
         match moveWindowToFront f cs pw with
         | none => none
         | some cs2 => mwtfLoop f cs2 w) := rfl

theorem mwtf_perm (fuel : Nat) :
    (∀ cs w cs', w ∈ cs → (cs.map Child.id).Nodup →
      moveWindowToFront fuel cs w = some cs' → List.Perm cs' cs) ∧
    (∀ cs w cs', w ∈ cs → (cs.map Child.id).Nodup →
      mwtfLoop fuel cs w = some cs' → List.Perm cs' cs) := by
  induction fuel with
  | zero =>
    constructor <;> intro cs w cs' hw hnd h <;>
      simp [moveWindowToFront_zero, mwtfLoop_zero] at h
  | succ f ih =>
    constructor
    · intro cs w cs' hw hnd h
      have hb : List.Perm (bringToFront cs w) cs := bringToFront_perm cs w hw hnd
      have hw2 : w ∈ bringToFront cs w := by simp [bringToFront]
      have hnd2 : ((bringToFront cs w).map Child.id).Nodup :=
        ((hb.map Child.id).nodup_iff).mpr hnd
      rw [moveWindowToFront_succ] at h
      exact (ih.2 _ _ _ hw2 hnd2 h).trans hb
    · intro cs w cs' hw hnd h
      rw [mwtfLoop_succ] at h
      split at h
      · cases h
        exact List.Perm.refl _
      · rename_i pw hoff
        split at h
        · simp at h
        · rename_i cs2 hrec
          have hpw : pw ∈ cs := mem_of_findOffending hoff
          have h2 : List.Perm cs2 cs := ih.1 _ _ _ hpw hnd hrec
          have hw2 : w ∈ cs2 := h2.mem_iff.mpr hw
          have hnd2 : (cs2.map Child.id).Nodup := ((h2.map Child.id).nodup_iff).mpr hnd
          exact (ih.2 _ _ _ hw2 hnd2 h).trans h2

theorem mwtfLoop_exit (fuel : Nat) :
    ∀ cs w cs', mwtfLoop fuel cs w = some cs' →
      findOffending cs' w.id (baseIndexOf cs' w.id) = none := by
  induction fuel with
  | zero => intro cs w cs' h; rw [mwtfLoop_zero] at h; simp at h
  | succ f ih =>
    intro cs w cs' h
    rw [mwtfLoop_succ] at h
    split at h
    · rename_i hoff
      cases h
      exact hoff
    · rename_i pw hoff
      split at h
      · simp at h
      · rename_i cs2 hrec
        exact ih cs2 w cs' h

theorem lastIndexAux_no_match (wid : Nat) :
    ∀ (cs : List Child) (i acc : Nat), (∀ c ∈ cs, c.id ≠ wid) →
      lastIndexAux wid cs i acc = acc := by
  intro cs
  induction cs with
  | nil => intro i acc h; rfl
  | cons c rest ih =>
    intro i acc h
    have hc : c.id ≠ wid := h c (List.mem_cons_self c rest)
    simp only [lastIndexAux, if_neg hc]
    exact ih (i + 1) acc (fun d hd => h d (List.mem_cons_of_mem c hd))

theorem lastIndexAux_append (wid : Nat) :
    ∀ (l1 rest : List Child) (i acc : Nat), (∀ c ∈ l1, c.id ≠ wid) →
      lastIndexAux wid (l1 ++ rest) i acc = lastIndexAux wid rest (i + l1.length) acc := by
  intro l1
  induction l1 with
  | nil => intro rest i acc h; simp
  | cons c t ih =>
    intro rest i acc h
    have hc : c.id ≠ wid := h c (List.mem_cons_self c t)
    show lastIndexAux wid (t ++ rest) (i + 1) (if c.id = wid then i else acc) =
      lastIndexAux wid rest (i + (c :: t).length) acc
    have harith : i + (c :: t).length = i + 1 + t.length := by
      simp only [List.length_cons]
      omega
    rw [if_neg hc, harith]
    exact ih rest (i + 1) acc (fun d hd => h d (List.mem_cons_of_mem c hd))

theorem baseIndexOf_split (l1 : List Child) (w : Child) (l2 : List Child)
    (h1 : ∀ c ∈ l1, c.id ≠ w.id) (h2 : ∀ c ∈ l2, c.id ≠ w.id) :
    baseIndexOf (l1 ++ w :: l2) w.id = l1.length := by
  unfold baseIndexOf
  rw [lastIndexAux_append w.id l1 (w :: l2) 0 0 h1]
  simp only [lastIndexAux, if_pos rfl, Nat.zero_add]
  exact lastIndexAux_no_match w.id l2 (l1.length + 1) l1.length h2

theorem idxOf_append (l1 rest : List Child) (cid : Nat) (h : ∀ c ∈ l1, c.id ≠ cid) :
    idxOf (l1 ++ rest) cid = l1.length + idxOf rest cid := by
  induction l1 with
  | nil => simp [idxOf]
  | cons c t ih =>
    have hc : c.id ≠ cid := h c (List.mem_cons_self c t)
    have hdec : decide (c.id = cid) = false := by simp [hc]
    have hih := ih (fun d hd => h d (List.mem_cons_of_mem c hd))
    simp only [idxOf] at hih ⊢
    simp only [List.cons_append, List.findIdx_cons, hdec, cond_false, hih, List.length_cons]
    omega

theorem nodup_split (l1 : List Child) (w : Child) (l2 : List Child)
    (hnd : ((l1 ++ w :: l2).map Child.id).Nodup) :
    (∀ c ∈ l1, c.id ≠ w.id) ∧ (∀ c ∈ l2, c.id ≠ w.id) ∧
      (∀ c ∈ l1, ∀ d ∈ l2, c.id ≠ d.id) := by
  rw [List.map_append, List.nodup_append] at hnd
  obtain ⟨hl1, hl2, hdisj⟩ := hnd
  rw [List.map_cons, List.nodup_cons] at hl2
  refine ⟨?_, ?_, ?_⟩
  · intro c hc he
    exact hdisj (List.mem_map_of_mem Child.id hc)
      (he ▸ List.mem_cons_self w.id (l2.map Child.id))
  · intro c hc he
    exact hl2.1 (he ▸ List.mem_map_of_mem Child.id hc)
  · intro c hc d hd he
    exact hdisj (List.mem_map_of_mem Child.id hc)
      (List.mem_cons_of_mem w.id (he ▸ List.mem_map_of_mem Child.id hd))

/-- C2: for every starting order of the root's child sequence (with distinct
pointer identities, and no popup its own parent window — C++ objects cannot be
constructed otherwise), if `moveWindowToFront(W)` returns, then every popup
`P` in the resulting child sequence whose `parentWindow()` back-reference is
`W` sits at a strictly larger index than `W`. -/
theorem moveWindowToFront_popup_above
    (fuel : Nat) (cs cs' : List Child) (w : Child)
    (hnd : (cs.map Child.id).Nodup) (hw : w ∈ cs)
    (hself : ∀ c ∈ cs, c.isPopup = true → c.parentWin ≠ c.id)
    (hrun : moveWindowToFront fuel cs w = some cs')
    (p : Child) (hp : p ∈ cs') (hpop : p.isPopup = true) (hpar : p.parentWin = w.id) :
    idxOf cs' w.id < idxOf cs' p.id := by
  have hperm : List.Perm cs' cs := (mwtf_perm fuel).1 cs w cs' hw hnd hrun
  have hw' : w ∈ cs' := hperm.mem_iff.mpr hw
  have hnd' : (cs'.map Child.id).Nodup := ((hperm.map Child.id).nodup_iff).mpr hnd
  have hexit : findOffending cs' w.id (baseIndexOf cs' w.id) = none := by
    cases fuel with
    | zero => exact absurd hrun (by simp [moveWindowToFront])
    | succ f =>
      exact mwtfLoop_exit f (bringToFront cs w) w cs' hrun
  obtain ⟨l1, l2, hsplit⟩ := List.append_of_mem hw'
  subst hsplit
  obtain ⟨hid1, hid2, hid12⟩ := nodup_split l1 w l2 hnd'
  have hbase : baseIndexOf (l1 ++ w :: l2) w.id = l1.length := baseIndexOf_split l1 w l2 hid1 hid2
  have hpw : p ≠ w := by
    intro he
    subst he
    exact hself p (hperm.mem_iff.mp hp) hpop hpar
  have hpl2 : p ∈ l2 := by
    rcases List.mem_append.mp hp with h1 | h2
    · exfalso
      rw [hbase] at hexit
      rw [findOffending, List.take_left] at hexit
      have := List.find?_eq_none.mp hexit p h1
      simp [hpop, hpar] at this
    · rcases List.mem_cons.mp h2 with h | h
      · exact absurd h hpw
      · exact h
  have hidw : idxOf (l1 ++ w :: l2) w.id = l1.length := by
    rw [idxOf_append l1 (w :: l2) w.id hid1]
    simp [idxOf, List.findIdx_cons]
  have hpid : p.id ≠ w.id := fun he => hid2 p hpl2 he
  have hwpid : w.id ≠ p.id := Ne.symm hpid
  have hidp : idxOf (l1 ++ w :: l2) p.id = l1.length + (idxOf l2 p.id + 1) := by
    rw [idxOf_append l1 (w :: l2) p.id (fun c hc => hid12 c hc p hpl2)]
    congr 1
    simp [idxOf, List.findIdx_cons, hwpid]
  omega

/-- Witness for C2: raising window 0 above its popup 1 from the order
popup-before-owner; the run returns with the popup in front. -/
theorem moveWindowToFront_popup_above_witness :
    idxOf [⟨0, false, 99⟩, ⟨1, true, 0⟩] 0 < idxOf [⟨0, false, 99⟩, ⟨1, true, 0⟩] 1 :=
  moveWindowToFront_popup_above 5 [⟨1, true, 0⟩, ⟨0, false, 99⟩]
    [⟨0, false, 99⟩, ⟨1, true, 0⟩] ⟨0, false, 99⟩
    (by decide) (by decide) (by decide) (by decide)
    ⟨1, true, 0⟩ (by decide) rfl rfl

/-- Two popups that are each other's parent window: the cyclic ownership on
which the recursion of `Screen::moveWindowToFront` never completes. -/
def cycA : Child := ⟨1, true, 2⟩

/-- The second popup of the ownership cycle. -/
def cycB : Child := ⟨2, true, 1⟩

theorem cyc_all (fuel : Nat) :
    moveWindowToFront fuel [cycA, cycB] cycA = none ∧
    mwtfLoop fuel [cycB, cycA] cycA = none ∧
    moveWindowToFront fuel [cycB, cycA] cycB = none ∧
    mwtfLoop fuel [cycA, cycB] cycB = none := by
  induction fuel with
  | zero => exact ⟨rfl, rfl, rfl, rfl⟩
  | succ f ih =>
    refine ⟨?_, ?_, ?_, ?_⟩
    · rw [moveWindowToFront_succ]
      have hb : bringToFront [cycA, cycB] cycA = [cycB, cycA] := by decide
      rw [hb]
      exact ih.2.1
    · rw [mwtfLoop_succ]
      have hoff : findOffending [cycB, cycA] cycA.id (baseIndexOf [cycB, cycA] cycA.id) =
          some cycB := by decide
      rw [hoff]
      show (match moveWindowToFront f [cycB, cycA] cycB with
            | none => none
            | some cs2 => mwtfLoop f cs2 cycA) = none
      rw [ih.2.2.1]
    · rw [moveWindowToFront_succ]
      have hb : bringToFront [cycB, cycA] cycB = [cycA, cycB] := by decide
      rw [hb]
      exact ih.2.2.2
    · rw [mwtfLoop_succ]
      have hoff : findOffending [cycA, cycB] cycB.id (baseIndexOf [cycA, cycB] cycB.id) =
          some cycA := by decide
      rw [hoff]
      show (match moveWindowToFront f [cycA, cycB] cycA with
            | none => none
            | some cs2 => mwtfLoop f cs2 cycB) = none
      rw [ih.1]

/-- C9: on the cyclic popup-ownership configuration `cycA`/`cycB` the
recursion of `Screen::moveWindowToFront` never completes: no amount of fuel
makes the embedded recursion return, i.e. the C++ code recurses forever,
against the specified requirement that cycles must not hang. -/
theorem moveWindowToFront_cyclic_diverges (fuel : Nat) :
    moveWindowToFront fuel [cycA, cycB] cycA = none :=
  (cyc_all fuel).1

/-! ### Dispatch core: state, environment and event entry points -/

/-- Integer pixel coordinates (`Vector2i`). -/
abbrev Pt := Int × Int

/-- Componentwise subtraction of `Vector2i`. -/
def psub (p q : Pt) : Pt := (p.1 - q.1, p.2 - q.2)

/-- One widget-callback invocation made during dispatch, tagged with the
receiving widget where the receiver is not the screen itself. -/
inductive CB where
  | btn (w : Nat)
  | motion
  | drag (w : Nat)
  | scroll
  | key (w : Nat)
  | chr (w : Nat)
  | focusLost (w : Nat)
  | focusGained (w : Nat)
  | drop
  | resize
deriving DecidableEq, Repr

/-- The screen-lifetime mutable state owned by the dispatch core
(`mMousePos`, `mMouseState`, `mModifiers`, `mDragActive`, `mDragWidget`,
`mCursor`, `mLastInteraction`, `mFocusPath`, the per-widget focused flags,
`mSize`, `mFBSize`).  The focused flags are kept as the set of widgets whose
flag is currently true. -/
@[ext]
structure ScreenState where
  mousePos : Pt
  mouseState : Nat
  modifiers : Nat
  dragActive : Bool
  dragWidget : Option Nat
  cursor : Nat
  lastInteraction : Nat
  focusPath : List Nat
  focusedSet : Finset Nat
  size : Pt
  fbSize : Pt
deriving DecidableEq

/-- Oracles for the widget tree and the registered callbacks.  Modelled from
the spec: the hit tester (`findWidget`), bounds test (`contains`), parent
accessor, absolute position, cursor accessor, Window/modal capability
queries (the `dynamic_cast` checks) and the per-widget event callbacks are
widget.cpp/window.cpp behaviour that is not part of the excerpt; every widget
callback may raise, which is represented with `Except`. -/
structure Env where
  rootId : Nat
  isWindow : Nat → Bool
  modal : Nat → Bool
  contains : Nat → Pt → Bool
  findWidget : Pt → Option Nat
  cursorOf : Nat → Nat
  parentOf : Nat → Option Nat
  absPos : Nat → Pt
  mouseButtonCb : Nat → Pt → Nat → Bool → Nat → Except String Bool
  mouseMotionCb : Pt → Pt → Nat → Nat → Except String Bool
  scrollCb : Pt → Pt → Except String Bool
  dragCb : Nat → Pt → Pt → Nat → Nat → Except String Bool
  keyCb : Nat → Nat → Nat → Nat → Nat → Except String Bool
  charCb : Nat → Nat → Except String Bool
  dropCb : List String → Except String Bool
  resizeCb : Option (Pt → Except String Unit)

instance {ε α : Type} [DecidableEq ε] [DecidableEq α] : DecidableEq (Except ε α) :=
  fun a b =>
    match a, b with
    | Except.ok x, Except.ok y =>
      match decEq x y with
      | isTrue h => isTrue (h ▸ rfl)
      | isFalse h => isFalse (fun hc => h (Except.ok.inj hc))
    | Except.error x, Except.error y =>
      match decEq x y with
      | isTrue h => isTrue (h ▸ rfl)
      | isFalse h => isFalse (fun hc => h (Except.error.inj hc))
    | Except.ok _, Except.error _ => isFalse (fun hc => Except.noConfusion hc)
    | Except.error _, Except.ok _ => isFalse (fun hc => Except.noConfusion hc)

/-- `mMouseState |= 1 << button`. -/
def setBit (m b : Nat) : Nat := m ||| (1 <<< b)

/-- `mMouseState &= ~(1 << button)`, written without a complement: dropping
the masked bit. -/
def clearBit (m b : Nat) : Nat := m - (m &&& (1 <<< b))

/-- The modal-exclusivity gate shared by `mouseButtonCallbackEvent` (lines
496-503) and `scrollCallbackEvent` (lines 573-580): the second-from-top
focus-path entry is a Window, it is modal, and it does not contain the
stored pointer position. -/
def modalGate (env : Env) (s : ScreenState) : Bool :=
  decide (1 < s.focusPath.length) &&
    (env.isWindow (s.focusPath.getD (s.focusPath.length - 2) 0) &&
     env.modal (s.focusPath.getD (s.focusPath.length - 2) 0) &&
     !env.contains (s.focusPath.getD (s.focusPath.length - 2) 0) s.mousePos)

/-- The while-loop of `Screen::updateFocus` walking parent pointers from the
focused widget up to the root, fuel-bounded (the widget tree of
constructible C++ objects is finite and acyclic, so some fuel suffices). -/
def ancestorChain (env : Env) : Nat → Nat → List Nat
  | 0, _ => []
  | Nat.succ f, w =>
    w :: (match env.parentOf w with
          | none => []
          | some p => ancestorChain env f p)

/-- The focus-lost loop of `Screen::updateFocus` (lines 613-617): for each
path entry whose focused flag is set, fire `focusEvent(false)`.  Modelled
from the spec: `Widget::focusEvent` records the flag, so a lost transition
clears the widget's membership in the focused set. -/
def lostPass (path : List Nat) (acc : Finset Nat × List CB) : Finset Nat × List CB :=
  path.foldl
    (fun acc w => if w ∈ acc.1 then (acc.1.erase w, acc.2 ++ [CB.focusLost w]) else acc)
    acc

/-- The focus-gained loop of `Screen::updateFocus` (lines 626-627), run over
the new path in root-to-leaf order: fire `focusEvent(true)` and set the
flag. -/
def gainedPass (path : List Nat) (acc : Finset Nat × List CB) : Finset Nat × List CB :=
  path.foldl (fun acc w => (insert w acc.1, acc.2 ++ [CB.focusGained w])) acc

/-- `Screen::updateFocus` (lines 612-631).  Returns the new state, the fired
focus transitions in order, and the Window ancestor handed to
`moveWindowToFront` (the child order itself lives outside this state
record); the C++ keeps the last Window seen while walking up. -/
def updateFocus (env : Env) (fuel : Nat) (w? : Option Nat) (s : ScreenState) :
    ScreenState × List CB × Option Nat :=
  let lost := lostPass s.focusPath (s.focusedSet, [])
  let path := match w? with
    | none => []
    | some w => ancestorChain env fuel w
  let window := path.foldl (fun acc w => if env.isWindow w then some w else acc)
    (none : Option Nat)
  let gained := gainedPass path.reverse lost
  ({ s with focusPath := path, focusedSet := gained.1 }, gained.2, window)

/-- The state effect of the tail of `Screen::mouseButtonCallbackEvent`
(lines 517-532): cursor update from the widget under the pointer, then the
drag-state update (hit-test again on button-down, treating a hit on the
screen itself as no target, clearing focus when there is no target; on
button-up always clearing drag state). -/
def mouseButtonNext (env : Env) (fuel button : Nat) (down : Bool) (s : ScreenState)
    (dropW : Option Nat) (log : List CB) : ScreenState × List CB :=
  let s3 := match dropW with
    | some d => if env.cursorOf d ≠ s.cursor then { s with cursor := env.cursorOf d } else s
    | none => s
  if down then
    let dw0 := env.findWidget s3.mousePos
    let dw := if dw0 = some env.rootId then none else dw0
    let s4 := { s3 with dragWidget := dw, dragActive := decide (dw ≠ none) }
    if !s4.dragActive then
      let uf := updateFocus env fuel none s4
      (uf.1, log ++ uf.2.1)
    else (s4, log)
  else ({ s3 with dragActive := false, dragWidget := none }, log)

/-- The tail of `Screen::mouseButtonCallbackEvent` (lines 517-535): the
state effect above followed by the final `mouseButtonEvent` dispatch on the
screen, with the catch converting an escaping exception into
not-handled. -/
def mouseButtonRest (env : Env) (fuel button : Nat) (down : Bool) (s : ScreenState)
    (dropW : Option Nat) (log : List CB) :
    Option (Except String Bool × ScreenState × List CB) :=
  let next := mouseButtonNext env fuel button down s dropW log
  match env.mouseButtonCb env.rootId next.1.mousePos button down next.1.modifiers with
  | Except.error e => some (Except.ok false, next.1, next.2 ++ [CB.btn env.rootId])
  | Except.ok b => some (Except.ok b, next.1, next.2 ++ [CB.btn env.rootId])

/-- The final button-up delivery of `Screen::mouseButtonCallbackEvent`
(lines 511-515) followed by the common tail: `mDragWidget->mouseButtonEvent`
with the point relative to the drag widget's parent (a `none` result models
the null dereference the C++ commits when `mDragActive` holds with a null
`mDragWidget` or parent); an exception escaping it is caught at the dispatch
boundary (not-handled), otherwise its result is discarded and dispatch
continues. -/
def mouseButtonDragRelease (env : Env) (fuel button : Nat) (down : Bool)
    (s2 : ScreenState) (dropW : Option Nat) :
    Option (Except String Bool × ScreenState × List CB) :=
  match s2.dragWidget with
  | none => none
  | some dw =>
    match env.parentOf dw with
    | none => none
    | some pdw =>
      match env.mouseButtonCb dw (psub s2.mousePos (env.absPos pdw)) button false
          s2.modifiers with
      | Except.error e => some (Except.ok false, s2, [CB.btn dw])
      | Except.ok _ => mouseButtonRest env fuel button down s2 dropW [CB.btn dw]

/-- `Screen::mouseButtonCallbackEvent` (lines 492-540): store the event
modifiers and refresh the interaction time, run the modal-exclusivity gate,
update the pressed-button bitmask, deliver a final button-up to the drag
widget when a drag is active and the button is released over a different
widget, then the common tail. -/
def mouseButtonCallbackEvent (env : Env) (fuel now button : Nat) (down : Bool)
    (modifiers : Nat) (s : ScreenState) :
    Option (Except String Bool × ScreenState × List CB) :=
  let s1 := { s with modifiers := modifiers, lastInteraction := now }
  if modalGate env s1 then some (Except.ok false, s1, [])
  else
    let s2 := { s1 with mouseState :=
      if down then setBit s1.mouseState button else clearBit s1.mouseState button }
    let dropW := env.findWidget s2.mousePos
    if s2.dragActive && !down && decide (dropW ≠ s2.dragWidget) then
      mouseButtonDragRelease env fuel button down s2 dropW
    else mouseButtonRest env fuel button down s2 dropW []

/-- `Screen::cursorPosCallbackEvent` (lines 456-490), without the
platform-specific pixel-ratio division: adjust the point by the fixed (1,2)
offset, then either hit-test and update the cursor (not dragging) or deliver
the drag callback; fall through to the motion callback when unhandled;
update the stored pointer position only when no exception escaped first. -/
def cursorPosCallbackEvent (env : Env) (now : Nat) (x y : Int) (s : ScreenState) :
    Option (Except String Bool × ScreenState × List CB) :=
  let s1 := { s with lastInteraction := now }
  let p := psub (x, y) ((1 : Int), (2 : Int))
  if !s1.dragActive then
    let w := env.findWidget p
    let s2 := match w with
      | some wid =>
        if env.cursorOf wid ≠ s1.cursor then { s1 with cursor := env.cursorOf wid } else s1
      | none => s1
    match env.mouseMotionCb p (psub p s2.mousePos) s2.mouseState s2.modifiers with
    | Except.error e => some (Except.ok false, s2, [CB.motion])
    | Except.ok r => some (Except.ok r, { s2 with mousePos := p }, [CB.motion])
  else
    match s1.dragWidget with
    | none => none
    | some dw =>
      match env.parentOf dw with
      | none => none
      | some pdw =>
        match env.dragCb dw (psub p (env.absPos pdw)) (psub p s1.mousePos) s1.mouseState
            s1.modifiers with
        | Except.error e => some (Except.ok false, s1, [CB.drag dw])
        | Except.ok true => some (Except.ok true, { s1 with mousePos := p }, [CB.drag dw])
        | Except.ok false =>
          match env.mouseMotionCb p (psub p s1.mousePos) s1.mouseState s1.modifiers with
          | Except.error e => some (Except.ok false, s1, [CB.drag dw, CB.motion])
          | Except.ok r => some (Except.ok r, { s1 with mousePos := p }, [CB.drag dw, CB.motion])

/-- The iteration `rbegin()+1 .. rend()` of `Screen::keyboardEvent` and
`Screen::keyboardCharacterEvent`: visit the given widgets in order, invoke
the callback only on those whose focused flag is set, stop at the first
handler (or escaping exception). -/
def focusWalk (fset : Finset Nat) (cb : Nat → Except String Bool) (mk : Nat → CB) :
    List Nat → Except String Bool × List CB
  | [] => (Except.ok false, [])
  | w :: rest =>
    if w ∈ fset then
      match cb w with
      | Except.error e => (Except.error e, [mk w])
      | Except.ok true => (Except.ok true, [mk w])
      | Except.ok false =>
        let r := focusWalk fset cb mk rest
        (r.1, mk w :: r.2)
    else focusWalk fset cb mk rest

/-- `Screen::keyboardEvent` (lines 429-437): when the focus path is
non-empty, walk it from `rbegin()+1` to `rend()`, i.e. over the reversed
path with its first (root) entry dropped. -/
def keyboardEvent (env : Env) (s : ScreenState) (key scancode action mods : Nat) :
    Except String Bool × List CB :=
  if 0 < s.focusPath.length then
    focusWalk s.focusedSet (fun w => env.keyCb w key scancode action mods) CB.key
      (s.focusPath.reverse.drop 1)
  else (Except.ok false, [])

/-- `Screen::keyboardCharacterEvent` (lines 439-446). -/
def keyboardCharacterEvent (env : Env) (s : ScreenState) (codepoint : Nat) :
    Except String Bool × List CB :=
  if 0 < s.focusPath.length then
    focusWalk s.focusedSet (fun w => env.charCb w codepoint) CB.chr
      (s.focusPath.reverse.drop 1)
  else (Except.ok false, [])

/-- `Screen::keyCallbackEvent` (lines 542-550): refresh the interaction
time, dispatch, catch. -/
def keyCallbackEvent (env : Env) (now key scancode action mods : Nat) (s : ScreenState) :
    Except String Bool × ScreenState × List CB :=
  let s1 := { s with lastInteraction := now }
  match keyboardEvent env s1 key scancode action mods with
  | (Except.error e, l) => (Except.ok false, s1, l)
  | (Except.ok b, l) => (Except.ok b, s1, l)

/-- `Screen::charCallbackEvent` (lines 552-561). -/
def charCallbackEvent (env : Env) (now codepoint : Nat) (s : ScreenState) :
    Except String Bool × ScreenState × List CB :=
  let s1 := { s with lastInteraction := now }
  match keyboardCharacterEvent env s1 codepoint with
  | (Except.error e, l) => (Except.ok false, s1, l)
  | (Except.ok b, l) => (Except.ok b, s1, l)

/-- `Screen::scrollCallbackEvent` (lines 570-587): refresh the interaction
time, modal-exclusivity gate, then deliver `scrollEvent` at the stored
pointer position, catching an escaping exception. -/
def scrollCallbackEvent (env : Env) (now : Nat) (sx sy : Int) (s : ScreenState) :
    Except String Bool × ScreenState × List CB :=
  let s1 := { s with lastInteraction := now }
  if modalGate env s1 then (Except.ok false, s1, [])
  else
    match env.scrollCb s1.mousePos (sx, sy) with
    | Except.error e => (Except.ok false, s1, [CB.scroll])
    | Except.ok b => (Except.ok b, s1, [CB.scroll])

/-- `Screen::resizeEvent` (lines 448-454): invoke the registered resize
callback when present and report whether one consumed the event. -/
def resizeEvent (env : Env) (size : Pt) : Except String Bool × List CB :=
  match env.resizeCb with
  | some f =>
    match f size with
    | Except.error e => (Except.error e, [CB.resize])
    | Except.ok _ => (Except.ok true, [CB.resize])
  | none => (Except.ok false, [])

/-- `Screen::resizeCallbackEvent` (lines 589-610), with the re-queried
platform sizes passed in (the C++ ignores the event payload and queries
SDL): the guard compares the previously stored framebuffer size and the
newly queried logical size against exactly (0,0); past it, both stored sizes
and the interaction time are updated and `resizeEvent` runs under the
catch. -/
def resizeCallbackEvent (env : Env) (now : Nat) (fbSize size : Pt) (s : ScreenState) :
    Except String Bool × ScreenState × List CB :=
  if s.fbSize = (((0 : Int), (0 : Int)) : Pt) ∨ size = (((0 : Int), (0 : Int)) : Pt) then
    (Except.ok false, s, [])
  else
    let s1 := { s with fbSize := fbSize, size := size, lastInteraction := now }
    match resizeEvent env s1.size with
    | (Except.error e, l) => (Except.ok false, s1, l)
    | (Except.ok b, l) => (Except.ok b, s1, l)

/-- `Screen::dropCallbackEvent` (lines 563-568): build the path vector and
forward it to `dropEvent`; there is no try/catch here, so an exception from
the callback propagates to the caller. -/
def dropCallbackEvent (env : Env) (count : Nat) (filenames : Nat → String) :
    Except String Bool × List CB :=
  let arg := (List.range count).map filenames
  match env.dropCb arg with
  | Except.error e => (Except.error e, [CB.drop])
  | Except.ok b => (Except.ok b, [CB.drop])

/-- `Screen::disposeWindow` (lines 633-639): scrub the focus path when the
window appears in it, null the drag-widget pointer when it is the disposed
window, remove it from the child sequence (`Widget::removeChild`, modelled
from the spec as removal from the sequence).  `mDragActive` is not
touched. -/
def disposeWindow (window : Nat) (s : ScreenState) (children : List Nat) :
    ScreenState × List Nat :=
  let s1 := if window ∈ s.focusPath then { s with focusPath := [] } else s
  let s2 := if s1.dragWidget = some window then { s1 with dragWidget := none } else s1
  (s2, children.filter (fun c => decide (c ≠ window)))

/-! ### Concrete fixtures for the closed checks -/

/-- A concrete oracle environment: widget 5 is a modal Window containing no
point, the hit test always returns the screen (id 0), every per-widget key
and char callback reports handled, all other callbacks report unhandled. -/
def env0 : Env where
  rootId := 0
  isWindow := fun w => decide (w = 5)
  modal := fun w => decide (w = 5)
  contains := fun w p => false
  findWidget := fun p => some 0
  cursorOf := fun w => 0
  parentOf := fun w => if w = 0 then none else some 0
  absPos := fun w => ((0 : Int), (0 : Int))
  mouseButtonCb := fun w p b d m => Except.ok false
  mouseMotionCb := fun p q a b => Except.ok false
  scrollCb := fun p q => Except.ok false
  dragCb := fun w p q a b => Except.ok false
  keyCb := fun w k sc a m => Except.ok true
  charCb := fun w c => Except.ok true
  dropCb := fun l => Except.ok false
  resizeCb := none

/-- A concrete screen state: pointer at (200,200), outside the modal window
5; the focus path runs leaf 7, window 5, root 0. -/
def s0 : ScreenState where
  mousePos := ((200 : Int), (200 : Int))
  mouseState := 0
  modifiers := 0
  dragActive := false
  dragWidget := none
  cursor := 0
  lastInteraction := 0
  focusPath := [7, 5, 0]
  focusedSet := {7, 5, 0}
  size := ((300 : Int), (300 : Int))
  fbSize := ((300 : Int), (300 : Int))

/-! ### Modal exclusivity (C1, C10) -/

/-- C1: while a modal window is active (the second-from-top focus-path entry
is a Window with the modal flag) and the stored pointer position lies
outside its bounds, `mouseButtonCallbackEvent` and `scrollCallbackEvent`
both return not-handled and invoke no widget callback at all, in particular
none inside the modal window. -/
theorem modal_exclusivity_swallows (env : Env) (fuel now button modifiers : Nat)
    (down : Bool) (sx sy : Int) (s : ScreenState)
    (hlen : 1 < s.focusPath.length)
    (hwin : env.isWindow (s.focusPath.getD (s.focusPath.length - 2) 0) = true)
    (hmod : env.modal (s.focusPath.getD (s.focusPath.length - 2) 0) = true)
    (hcon : env.contains (s.focusPath.getD (s.focusPath.length - 2) 0) s.mousePos = false) :
    mouseButtonCallbackEvent env fuel now button down modifiers s =
      some (Except.ok false, { s with modifiers := modifiers, lastInteraction := now }, []) ∧
    scrollCallbackEvent env now sx sy s =
      (Except.ok false, { s with lastInteraction := now }, []) := by
  have hgate : modalGate env s = true := by
    unfold modalGate
    rw [hwin, hmod, hcon]
    simp [hlen]
  have hg1 : modalGate env { s with modifiers := modifiers, lastInteraction := now } = true :=
    hgate
  have hg2 : modalGate env { s with lastInteraction := now } = true := hgate
  exact ⟨by simp [mouseButtonCallbackEvent, hg1], by simp [scrollCallbackEvent, hg2]⟩

/-- Witness for C1 at the concrete modal scenario: window 5 modal, pointer
(200,200) outside it; both entry points swallow. -/
theorem modal_exclusivity_swallows_witness :
    mouseButtonCallbackEvent env0 5 3 0 true 9 s0 =
      some (Except.ok false, { s0 with modifiers := 9, lastInteraction := 3 }, []) ∧
    scrollCallbackEvent env0 3 1 1 s0 =
      (Except.ok false, { s0 with lastInteraction := 3 }, []) :=
  modal_exclusivity_swallows env0 5 3 0 9 true 1 1 s0
    (by decide) (by decide) (by decide) (by decide)

/-- C10: a button event swallowed by the modal-exclusivity gate is not fully
state-free: the stored modifier mask has already been overwritten with the
event modifiers and the last-interaction timestamp refreshed, while the
pressed-button bitmask, drag state, cursor and focus path are unchanged, the
result is not-handled and no widget callback ran. -/
theorem modal_swallow_state (env : Env) (fuel now button modifiers : Nat)
    (down : Bool) (s : ScreenState)
    (hlen : 1 < s.focusPath.length)
    (hwin : env.isWindow (s.focusPath.getD (s.focusPath.length - 2) 0) = true)
    (hmod : env.modal (s.focusPath.getD (s.focusPath.length - 2) 0) = true)
    (hcon : env.contains (s.focusPath.getD (s.focusPath.length - 2) 0) s.mousePos = false) :
    ((mouseButtonCallbackEvent env fuel now button down modifiers s).map
      (fun r => r.2.1.modifiers) = some modifiers) ∧
    ((mouseButtonCallbackEvent env fuel now button down modifiers s).map
      (fun r => r.2.1.lastInteraction) = some now) ∧
    ((mouseButtonCallbackEvent env fuel now button down modifiers s).map
      (fun r => r.2.1.mouseState) = some s.mouseState) ∧
    ((mouseButtonCallbackEvent env fuel now button down modifiers s).map
      (fun r => r.2.1.dragActive) = some s.dragActive) ∧
    ((mouseButtonCallbackEvent env fuel now button down modifiers s).map
      (fun r => r.2.1.dragWidget) = some s.dragWidget) ∧
    ((mouseButtonCallbackEvent env fuel now button down modifiers s).map
      (fun r => r.2.1.cursor) = some s.cursor) ∧
    ((mouseButtonCallbackEvent env fuel now button down modifiers s).map
      (fun r => r.2.1.focusPath) = some s.focusPath) ∧
    ((mouseButtonCallbackEvent env fuel now button down modifiers s).map
      (fun r => r.1) = some (Except.ok false)) ∧
    ((mouseButtonCallbackEvent env fuel now button down modifiers s).map
      (fun r => r.2.2) = some ([] : List CB)) := by
  have hgate : modalGate env s = true := by
    unfold modalGate
    rw [hwin, hmod, hcon]
    simp [hlen]
  have hg1 : modalGate env { s with modifiers := modifiers, lastInteraction := now } = true :=
    hgate
  refine ⟨?_, ?_, ?_, ?_, ?_, ?_, ?_, ?_, ?_⟩ <;>
    simp [mouseButtonCallbackEvent, hg1]

/-- Witness for C10: the swallowed concrete button event has already stored
the event modifiers. -/
theorem modal_swallow_state_witness :
    (mouseButtonCallbackEvent env0 5 3 0 true 9 s0).map
      (fun r => r.2.1.modifiers) = some 9 :=
  (modal_swallow_state env0 5 3 0 9 true s0
    (by decide) (by decide) (by decide) (by decide)).1

/-! ### Button-down on empty space (C6) -/

/-- The C6 counterexample state: a drag is already active and the modal
window 5 sits in the focus path while the pointer is on empty space. -/
def s6 : ScreenState := { s0 with dragActive := true, dragWidget := some 7 }

/-- C6 counterexample: a button-down whose hit test returns the screen
itself, but which the modal-exclusivity gate swallows first: the drag widget
stays 7, drag-active stays true and the focus path is not cleared, against
the claim as stated over every such button-down. -/
theorem button_down_on_root_cex :
    env0.findWidget s6.mousePos = some env0.rootId ∧
    (mouseButtonCallbackEvent env0 5 3 0 true 9 s6).map
      (fun r => (r.2.1.dragWidget, r.2.1.dragActive, r.2.1.focusPath)) =
      some (some 7, true, [7, 5, 0]) := by decide

theorem mouseButtonNext_down_root (env : Env) (fuel button : Nat) (s : ScreenState)
    (dropW : Option Nat) (log : List CB)
    (hhit : env.findWidget s.mousePos = some env.rootId) :
    (mouseButtonNext env fuel button true s dropW log).1.dragWidget = none ∧
    (mouseButtonNext env fuel button true s dropW log).1.dragActive = false ∧
    (mouseButtonNext env fuel button true s dropW log).1.focusPath = [] := by
  cases dropW with
  | none => refine ⟨?_, ?_, ?_⟩ <;> simp [mouseButtonNext, hhit, updateFocus]
  | some d =>
    rcases eq_or_ne (env.cursorOf d) s.cursor with hcur | hcur
    · refine ⟨?_, ?_, ?_⟩ <;> simp [mouseButtonNext, hcur, hhit, updateFocus]
    · refine ⟨?_, ?_, ?_⟩ <;> simp [mouseButtonNext, hcur, hhit, updateFocus]

theorem mouseButtonRest_down_root (env : Env) (fuel button : Nat) (s : ScreenState)
    (dropW : Option Nat) (log : List CB)
    (hhit : env.findWidget s.mousePos = some env.rootId) :
    (mouseButtonRest env fuel button true s dropW log).map
      (fun r => (r.2.1.dragWidget, r.2.1.dragActive, r.2.1.focusPath)) =
      some (none, false, []) := by
  have hn := mouseButtonNext_down_root env fuel button s dropW log hhit
  simp only [mouseButtonRest]
  split <;> simp [hn.1, hn.2.1, hn.2.2]

/-- C6 (amended): for every button-down that passes the modal-exclusivity
gate and whose hit test returns the screen itself, dispatch leaves the drag
widget null and drag-active false, and clears the focus path (the
`updateFocus(nullptr)` call). -/
theorem button_down_on_root (env : Env) (fuel now button modifiers : Nat) (s : ScreenState)
    (hgate : modalGate env { s with modifiers := modifiers, lastInteraction := now } = false)
    (hhit : env.findWidget s.mousePos = some env.rootId) :
    (mouseButtonCallbackEvent env fuel now button true modifiers s).map
      (fun r => (r.2.1.dragWidget, r.2.1.dragActive, r.2.1.focusPath)) =
      some (none, false, []) := by
  simp only [mouseButtonCallbackEvent]
  rw [if_neg (by simp [hgate])]
  simp only [Bool.not_true, Bool.and_false, Bool.false_and, Bool.false_eq_true, if_false]
  exact mouseButtonRest_down_root env fuel button _ _ [] hhit

/-- The state for the C6 witness: empty focus path, so the modal gate is
off. -/
def sE : ScreenState := { s0 with focusPath := [] }

/-- Witness for the amended C6 at a concrete button-down on empty space. -/
theorem button_down_on_root_witness :
    (mouseButtonCallbackEvent env0 5 3 0 true 9 sE).map
      (fun r => (r.2.1.dragWidget, r.2.1.dragActive, r.2.1.focusPath)) =
      some (none, false, []) :=
  button_down_on_root env0 5 3 0 9 sE (by decide) (by decide)

/-! ### Keyboard and character dispatch order (C3) -/

/-- The walk order asserted by the claim for keyboard and character events:
leaf-to-root, skipping the root entry.  The focus path is stored leaf-first
with the root last, so this order is the stored path with its last entry
dropped, leaf first. -/
def keyboardEventLeafToRoot (env : Env) (s : ScreenState) (key scancode action mods : Nat) :
    Except String Bool × List CB :=
  if 0 < s.focusPath.length then
    focusWalk s.focusedSet (fun w => env.keyCb w key scancode action mods) CB.key
      s.focusPath.dropLast
  else (Except.ok false, [])

/-- Accumulator-style walk used to state the amended order independently of
the code-side recursion: invoke the callback only on widgets whose focused
flag is set, return handled at the first callback that handles (or raises),
otherwise continue. -/
def specWalkAux (fset : Finset Nat) (cb : Nat → Except String Bool) (mk : Nat → CB)
    (acc : List CB) : List Nat → Except String Bool × List CB
  | [] => (Except.ok false, acc.reverse)
  | w :: rest =>
    if w ∈ fset then
      match cb w with
      | Except.error e => (Except.error e, (mk w :: acc).reverse)
      | Except.ok true => (Except.ok true, (mk w :: acc).reverse)
      | Except.ok false => specWalkAux fset cb mk (mk w :: acc) rest
    else specWalkAux fset cb mk acc rest

/-- The amended dispatch order for key events: the non-root part of the
focus path visited top-down, from the entry just below the root to the
leaf. -/
def keyboardEventTopDown (env : Env) (s : ScreenState) (key scancode action mods : Nat) :
    Except String Bool × List CB :=
  if 0 < s.focusPath.length then
    specWalkAux s.focusedSet (fun w => env.keyCb w key scancode action mods) CB.key []
      s.focusPath.dropLast.reverse
  else (Except.ok false, [])

/-- The amended dispatch order for character events. -/
def keyboardCharacterEventTopDown (env : Env) (s : ScreenState) (codepoint : Nat) :
    Except String Bool × List CB :=
  if 0 < s.focusPath.length then
    specWalkAux s.focusedSet (fun w => env.charCb w codepoint) CB.chr []
      s.focusPath.dropLast.reverse
  else (Except.ok false, [])

/-- The C3 counterexample state: focus path leaf 10, window 11, root 0, with
both non-root entries focused and every key callback handling. -/
def s3 : ScreenState := { s0 with focusPath := [10, 11, 0], focusedSet := {10, 11} }

/-- C3 counterexample: with leaf 10 and its window 11 both focused and both
handling, the code delivers the key to widget 11 (the entry next to the
root), not to the leaf 10 that the claimed leaf-to-root walk would hit
first. -/
theorem keyboard_walk_cex :
    keyboardEvent env0 s3 0 0 0 0 ≠ keyboardEventLeafToRoot env0 s3 0 0 0 0 ∧
    (keyboardEvent env0 s3 0 0 0 0).2 = [CB.key 11] ∧
    (keyboardEventLeafToRoot env0 s3 0 0 0 0).2 = [CB.key 10] := by decide

theorem specWalkAux_eq (fset : Finset Nat) (cb : Nat → Except String Bool) (mk : Nat → CB) :
    ∀ (l : List Nat) (acc : List CB),
      specWalkAux fset cb mk acc l =
        ((focusWalk fset cb mk l).1, acc.reverse ++ (focusWalk fset cb mk l).2) := by
  intro l
  induction l with
  | nil => intro acc; simp [specWalkAux, focusWalk]
  | cons w rest ih =>
    intro acc
    by_cases hw : w ∈ fset
    · simp only [specWalkAux, focusWalk, if_pos hw]
      cases hcb : cb w with
      | error e => simp
      | ok b =>
        cases b with
        | true => simp
        | false =>
          rw [ih (mk w :: acc)]
          simp
    · simp only [specWalkAux, focusWalk, if_neg hw]
      exact ih acc

theorem reverse_drop_one_eq (l : List Nat) : l.reverse.drop 1 = l.dropLast.reverse := by
  rw [List.drop_one, List.tail_reverse_eq_reverse_dropLast]

/-- C3 (amended): `keyboardEvent` and `keyboardCharacterEvent` walk the
focus path from the entry just below the root down to the leaf (top-down,
skipping the root entry), invoke the callback only on widgets that report
themselves focused, return true at the first widget whose callback returns
true, and return false when no widget handled the event. -/
theorem keyboard_walk_top_down (env : Env) (s : ScreenState)
    (key scancode action mods codepoint : Nat) :
    keyboardEvent env s key scancode action mods =
      keyboardEventTopDown env s key scancode action mods ∧
    keyboardCharacterEvent env s codepoint = keyboardCharacterEventTopDown env s codepoint := by
  constructor
  · unfold keyboardEvent keyboardEventTopDown
    rw [reverse_drop_one_eq, specWalkAux_eq]
    simp
  · unfold keyboardCharacterEvent keyboardCharacterEventTopDown
    rw [reverse_drop_one_eq, specWalkAux_eq]
    simp

/-! ### Focus path manager (C4) -/

theorem lostPass_cons (w : Nat) (rest : List Nat) (acc : Finset Nat × List CB) :
    lostPass (w :: rest) acc =
      lostPass rest (if w ∈ acc.1 then (acc.1.erase w, acc.2 ++ [CB.focusLost w]) else acc) :=
  rfl

theorem gainedPass_cons (w : Nat) (rest : List Nat) (acc : Finset Nat × List CB) :
    gainedPass (w :: rest) acc =
      gainedPass rest (insert w acc.1, acc.2 ++ [CB.focusGained w]) := rfl

theorem lostPass_fst_mem (x : Nat) :
    ∀ (path : List Nat) (acc : Finset Nat × List CB),
      (x ∈ (lostPass path acc).1 ↔ x ∈ acc.1 ∧ x ∉ path) := by
  intro path
  induction path with
  | nil => intro acc; simp [lostPass]
  | cons w rest ih =>
    intro acc
    rw [lostPass_cons]
    by_cases hw : w ∈ acc.1
    · rw [if_pos hw, ih]
      simp only [Finset.mem_erase, List.mem_cons]
      constructor
      · rintro ⟨⟨hxw, hxa⟩, hxr⟩
        exact ⟨hxa, fun hc => hc.elim hxw hxr⟩
      · rintro ⟨hxa, hxc⟩
        exact ⟨⟨fun he => hxc (Or.inl he), hxa⟩, fun hr => hxc (Or.inr hr)⟩
    · rw [if_neg hw, ih]
      simp only [List.mem_cons]
      constructor
      · rintro ⟨hxa, hxr⟩
        exact ⟨hxa, fun hc => hc.elim (fun he => hw (he ▸ hxa)) hxr⟩
      · rintro ⟨hxa, hxc⟩
        exact ⟨hxa, fun hr => hxc (Or.inr hr)⟩

theorem lostPass_snd_all :
    ∀ (path : List Nat) (acc : Finset Nat × List CB), path.Nodup →
      (∀ v ∈ path, v ∈ acc.1) →
      (lostPass path acc).2 = acc.2 ++ path.map CB.focusLost := by
  intro path
  induction path with
  | nil => intro acc _ _; simp [lostPass]
  | cons w rest ih =>
    intro acc hnd hall
    have hw : w ∈ acc.1 := hall w (List.mem_cons_self w rest)
    have hwnotin := (List.nodup_cons.mp hnd).1
    have hnd2 := (List.nodup_cons.mp hnd).2
    have hall2 : ∀ v ∈ rest, v ∈ (acc.1.erase w, acc.2 ++ [CB.focusLost w]).1 := by
      intro v hv
      exact Finset.mem_erase.mpr
        ⟨fun he => hwnotin (he ▸ hv), hall v (List.mem_cons_of_mem w hv)⟩
    rw [lostPass_cons, if_pos hw, ih (acc.1.erase w, acc.2 ++ [CB.focusLost w]) hnd2 hall2]
    simp

theorem gainedPass_fst_mem (x : Nat) :
    ∀ (path : List Nat) (acc : Finset Nat × List CB),
      (x ∈ (gainedPass path acc).1 ↔ x ∈ acc.1 ∨ x ∈ path) := by
  intro path
  induction path with
  | nil => intro acc; simp [gainedPass]
  | cons w rest ih =>
    intro acc
    rw [gainedPass_cons, ih]
    simp only [Finset.mem_insert, List.mem_cons]
    tauto

theorem gainedPass_snd :
    ∀ (path : List Nat) (acc : Finset Nat × List CB),
      (gainedPass path acc).2 = acc.2 ++ path.map CB.focusGained := by
  intro path
  induction path with
  | nil => intro acc; simp [gainedPass]
  | cons w rest ih =>
    intro acc
    rw [gainedPass_cons, ih]
    simp

/-- The state for the C4 inputs: empty focus path and no focused widget. -/
def s04 : ScreenState := { s0 with focusPath := [], focusedSet := ∅ }

/-- C4 counterexample: with ancestor chain leaf 1, root 0, the second
identical `updateFocus` call fires focus-lost transitions (the claim says
the lost-pass is a no-op) and widget 1 receives two focus-gained transitions
across the two calls (the claim says exactly one per ancestor). -/
theorem updateFocus_twice_cex :
    ((updateFocus env0 3 (some 1) (updateFocus env0 3 (some 1) s04).1).2.1.filter
      (fun e => match e with | CB.focusLost _ => true | _ => false)) =
      [CB.focusLost 1, CB.focusLost 0] ∧
    (((updateFocus env0 3 (some 1) s04).2.1 ++
      (updateFocus env0 3 (some 1) (updateFocus env0 3 (some 1) s04).1).2.1).count
      (CB.focusGained 1)) = 2 := by decide

/-- C4 (amended): calling `updateFocus(W)` twice in a row is idempotent in
state and in the window-stacker request, but the second call is not
transition-free: it fires one focus-lost transition per ancestor-chain entry
followed by one focus-gained transition per entry, so every ancestor of W
receives two gained transitions in total across the two calls, not one. -/
theorem updateFocus_twice (env : Env) (fuel w : Nat) (s : ScreenState)
    (hnd : (ancestorChain env fuel w).Nodup) :
    (updateFocus env fuel (some w) (updateFocus env fuel (some w) s).1).1 =
      (updateFocus env fuel (some w) s).1 ∧
    (updateFocus env fuel (some w) (updateFocus env fuel (some w) s).1).2.2 =
      (updateFocus env fuel (some w) s).2.2 ∧
    (updateFocus env fuel (some w) (updateFocus env fuel (some w) s).1).2.1 =
      (ancestorChain env fuel w).map CB.focusLost ++
        (ancestorChain env fuel w).reverse.map CB.focusGained := by
  have hsub : ∀ x ∈ ancestorChain env fuel w,
      x ∈ (updateFocus env fuel (some w) s).1.focusedSet := by
    intro x hx
    exact (gainedPass_fst_mem x (ancestorChain env fuel w).reverse
      (lostPass s.focusPath (s.focusedSet, []))).mpr (Or.inr (List.mem_reverse.mpr hx))
  have hlost2 : (lostPass (ancestorChain env fuel w)
      ((updateFocus env fuel (some w) s).1.focusedSet, [])).2 =
      (ancestorChain env fuel w).map CB.focusLost := by
    rw [lostPass_snd_all (ancestorChain env fuel w)
      ((updateFocus env fuel (some w) s).1.focusedSet, []) hnd hsub]
    simp
  have hfs2eq : (gainedPass (ancestorChain env fuel w).reverse
      (lostPass (ancestorChain env fuel w)
        ((updateFocus env fuel (some w) s).1.focusedSet, []))).1 =
      (updateFocus env fuel (some w) s).1.focusedSet := by
    apply Finset.ext
    intro x
    constructor
    · intro hx
      rcases (gainedPass_fst_mem x _ _).mp hx with h | h
      · exact ((lostPass_fst_mem x _ _).mp h).1
      · exact hsub x (List.mem_reverse.mp h)
    · intro hx
      by_cases hxC : x ∈ ancestorChain env fuel w
      · exact (gainedPass_fst_mem x _ _).mpr (Or.inr (List.mem_reverse.mpr hxC))
      · exact (gainedPass_fst_mem x _ _).mpr (Or.inl ((lostPass_fst_mem x _ _).mpr ⟨hx, hxC⟩))
  refine ⟨?_, rfl, ?_⟩
  · show ({ (updateFocus env fuel (some w) s).1 with
        focusPath := ancestorChain env fuel w,
        focusedSet := (gainedPass (ancestorChain env fuel w).reverse
          (lostPass (ancestorChain env fuel w)
            ((updateFocus env fuel (some w) s).1.focusedSet, []))).1 } : ScreenState) =
      (updateFocus env fuel (some w) s).1
    rw [hfs2eq]
    rfl
  · show (gainedPass (ancestorChain env fuel w).reverse
      (lostPass (ancestorChain env fuel w)
        ((updateFocus env fuel (some w) s).1.focusedSet, []))).2 =
      (ancestorChain env fuel w).map CB.focusLost ++
        (ancestorChain env fuel w).reverse.map CB.focusGained
    rw [gainedPass_snd, hlost2]

/-- Witness for the amended C4: the second identical `updateFocus` call
leaves the state produced by the first call unchanged. -/
theorem updateFocus_twice_witness :
    (updateFocus env0 3 (some 1) (updateFocus env0 3 (some 1) s04).1).1 =
      (updateFocus env0 3 (some 1) s04).1 :=
  (updateFocus_twice env0 3 1 s04 (by decide)).1

/-! ### Exception handling at the dispatch boundary (C5) -/

/-- Whether an `Except` result is a normal return. -/
def exceptOk : Except String Bool → Bool
  | Except.ok _ => true
  | Except.error _ => false

/-- The environment whose drop callback raises. -/
def envBoom : Env := { env0 with dropCb := fun l => Except.error "boom" }

/-- C5 counterexample: an exception escaping the drop callback propagates out
of `dropCallbackEvent`, which has no try/catch, instead of being converted
into a not-handled result at the dispatch boundary. -/
theorem dispatch_catch_cex :
    (dropCallbackEvent envBoom 1 (fun i => "f")).1 = Except.error "boom" ∧
    (dropCallbackEvent envBoom 1 (fun i => "f")).1 ≠ Except.ok false := by decide

theorem mouseButtonRest_isOk (env : Env) (fuel button : Nat) (down : Bool)
    (s : ScreenState) (dropW : Option Nat) (log : List CB)
    (r : Except String Bool × ScreenState × List CB)
    (h : mouseButtonRest env fuel button down s dropW log = some r) :
    exceptOk r.1 = true := by
  simp only [mouseButtonRest] at h
  split at h <;> (injection h with h2; subst h2; rfl)

theorem mouseButtonDragRelease_isOk (env : Env) (fuel button : Nat) (down : Bool)
    (s2 : ScreenState) (dropW : Option Nat)
    (r : Except String Bool × ScreenState × List CB)
    (h : mouseButtonDragRelease env fuel button down s2 dropW = some r) :
    exceptOk r.1 = true := by
  unfold mouseButtonDragRelease at h
  split at h
  · injection h
  · split at h
    · injection h
    · split at h
      · injection h with h2; subst h2; rfl
      · exact mouseButtonRest_isOk _ _ _ _ _ _ _ _ h

theorem mouseButtonRest_catch (env : Env) (fuel button : Nat) (down : Bool)
    (s : ScreenState) (dropW : Option Nat) (log : List CB) (e : String)
    (hcb : ∀ p m, env.mouseButtonCb env.rootId p button down m = Except.error e) :
    (mouseButtonRest env fuel button down s dropW log).map (fun r => r.1) =
      some (Except.ok false) := by
  simp [mouseButtonRest, hcb]

/-- C5 (amended): any exception escaping a widget callback during
pointer-move, button, key, char, scroll or resize dispatch is caught at the
dispatch boundary and converted into the not-handled `ok false` result
(shown for every callback site: the motion and drag callbacks of the
pointer-move path, the final dispatch and the drag-release delivery of the
button path, the per-widget key and char walks, the scroll callback and the
registered resize callback), and no input at all makes these six entry
points propagate an exception; `dropCallbackEvent` however has no try/catch,
so an exception raised by the drop callback propagates to the caller. -/
theorem dispatch_catch (env : Env)
    (fuel now button key scancode action mods codepoint modifiers count : Nat)
    (down : Bool) (x y sx sy : Int) (fb sz : Pt) (s : ScreenState)
    (files : Nat → String) (e : String) (dw pdw : Nat) (l lc : List CB)
    (f : Pt → Except String Unit) :
    (env.dropCb ((List.range count).map files) = Except.error e →
      dropCallbackEvent env count files = (Except.error e, [CB.drop])) ∧
    (s.dragActive = false →
      (∀ a b c d, env.mouseMotionCb a b c d = Except.error e) →
      (cursorPosCallbackEvent env now x y s).map (fun r => r.1) =
        some (Except.ok false)) ∧
    (s.dragActive = true → s.dragWidget = some dw → env.parentOf dw = some pdw →
      (∀ a b c d, env.dragCb dw a b c d = Except.error e) →
      (cursorPosCallbackEvent env now x y s).map (fun r => r.1) =
        some (Except.ok false)) ∧
    (modalGate env { s with modifiers := modifiers, lastInteraction := now } = false →
      s.dragActive = false →
      (∀ p m, env.mouseButtonCb env.rootId p button down m = Except.error e) →
      (mouseButtonCallbackEvent env fuel now button down modifiers s).map
        (fun r => r.1) = some (Except.ok false)) ∧
    (modalGate env { s with modifiers := modifiers, lastInteraction := now } = false →
      s.dragActive = true → s.dragWidget = some dw → env.parentOf dw = some pdw →
      env.findWidget s.mousePos ≠ s.dragWidget →
      (∀ p m, env.mouseButtonCb dw p button false m = Except.error e) →
      (mouseButtonCallbackEvent env fuel now button false modifiers s).map
        (fun r => r.1) = some (Except.ok false)) ∧
    (keyboardEvent env { s with lastInteraction := now } key scancode action mods =
        (Except.error e, l) →
      keyCallbackEvent env now key scancode action mods s =
        (Except.ok false, { s with lastInteraction := now }, l)) ∧
    (keyboardCharacterEvent env { s with lastInteraction := now } codepoint =
        (Except.error e, lc) →
      charCallbackEvent env now codepoint s =
        (Except.ok false, { s with lastInteraction := now }, lc)) ∧
    (modalGate env { s with lastInteraction := now } = false →
      env.scrollCb s.mousePos (sx, sy) = Except.error e →
      scrollCallbackEvent env now sx sy s =
        (Except.ok false, { s with lastInteraction := now }, [CB.scroll])) ∧
    (s.fbSize ≠ (((0 : Int), (0 : Int)) : Pt) → sz ≠ (((0 : Int), (0 : Int)) : Pt) →
      env.resizeCb = some f → f sz = Except.error e →
      resizeCallbackEvent env now fb sz s =
        (Except.ok false,
          { s with fbSize := fb, size := sz, lastInteraction := now }, [CB.resize])) ∧
    (∀ r ∈ cursorPosCallbackEvent env now x y s, exceptOk r.1 = true) ∧
    (∀ r ∈ mouseButtonCallbackEvent env fuel now button down modifiers s,
      exceptOk r.1 = true) ∧
    exceptOk (keyCallbackEvent env now key scancode action mods s).1 = true ∧
    exceptOk (charCallbackEvent env now codepoint s).1 = true ∧
    exceptOk (scrollCallbackEvent env now sx sy s).1 = true ∧
    exceptOk (resizeCallbackEvent env now fb sz s).1 = true := by
  refine ⟨?_, ?_, ?_, ?_, ?_, ?_, ?_, ?_, ?_, ?_, ?_, ?_, ?_, ?_, ?_⟩
  · intro hdrop
    simp [dropCallbackEvent, hdrop]
  · intro hda hcb
    simp only [cursorPosCallbackEvent]
    rw [if_pos (by simp [hda])]
    simp [hcb]
  · intro hda hdw hp hcb
    simp only [cursorPosCallbackEvent]
    rw [if_neg (by simp [hda])]
    simp [hdw, hp, hcb]
  · intro hg hda hcb
    simp only [mouseButtonCallbackEvent]
    rw [if_neg (by simp [hg])]
    rw [if_neg (by simp [hda])]
    exact mouseButtonRest_catch env fuel button down _ _ [] e hcb
  · intro hg hda hdw hp hne hcb
    simp only [mouseButtonCallbackEvent]
    rw [if_neg (by simp [hg])]
    rw [if_pos (by simp [hda, hne])]
    simp [mouseButtonDragRelease, hdw, hp, hcb]
  · intro hk
    simp [keyCallbackEvent, hk]
  · intro hk
    simp [charCallbackEvent, hk]
  · intro hg hcb
    simp only [scrollCallbackEvent]
    rw [if_neg (by simp [hg])]
    simp [hcb]
  · intro h1 h2 hf hcb
    have hcond : ¬(s.fbSize = (((0 : Int), (0 : Int)) : Pt) ∨
        sz = (((0 : Int), (0 : Int)) : Pt)) := by
      rintro (hc | hc)
      · exact h1 hc
      · exact h2 hc
    unfold resizeCallbackEvent
    rw [if_neg hcond]
    simp [resizeEvent, hf, hcb]
  · intro r hr
    simp only [Option.mem_def, cursorPosCallbackEvent] at hr
    repeat' split at hr
    all_goals first
      | (injection hr with hr2; subst hr2; rfl)
      | injection hr
  · intro r hr
    simp only [Option.mem_def, mouseButtonCallbackEvent] at hr
    split at hr
    · injection hr with hr2; subst hr2; rfl
    · by_cases hd : (s.dragActive && !down &&
          decide (env.findWidget s.mousePos ≠ s.dragWidget)) = true
      · rw [if_pos hd] at hr
        exact mouseButtonDragRelease_isOk _ _ _ _ _ _ _ hr
      · rw [if_neg hd] at hr
        exact mouseButtonRest_isOk _ _ _ _ _ _ _ _ hr
  · unfold keyCallbackEvent
    rcases hk : keyboardEvent env { s with lastInteraction := now } key scancode action mods
      with ⟨r, l2⟩
    cases r <;> simp [hk, exceptOk]
  · unfold charCallbackEvent
    rcases hk : keyboardCharacterEvent env { s with lastInteraction := now } codepoint
      with ⟨r, l2⟩
    cases r <;> simp [hk, exceptOk]
  · simp only [scrollCallbackEvent]
    split
    · rfl
    · split <;> rfl
  · simp only [resizeCallbackEvent]
    split
    · rfl
    · rcases hre : resizeEvent env sz with ⟨r, l2⟩
      cases r <;> simp [hre, exceptOk]

/-- The environment whose scroll and drop callbacks raise. -/
def envBoom2 : Env :=
  { env0 with
    scrollCb := fun p q => Except.error "boom",
    dropCb := fun l => Except.error "boom" }

/-- Witness for the amended C5: the raising drop callback propagates its
error out of `dropCallbackEvent`, while the raising scroll callback is
caught at the dispatch boundary and converted into the not-handled ok false
result. -/
theorem dispatch_catch_witness :
    dropCallbackEvent envBoom2 1 (fun i => "f") = (Except.error "boom", [CB.drop]) ∧
    scrollCallbackEvent envBoom2 3 1 1 sE =
      (Except.ok false, { sE with lastInteraction := 3 }, [CB.scroll]) :=
  ⟨(dispatch_catch envBoom2 5 3 0 0 0 0 0 0 9 1 true 1 1 1 1
      (((1 : Int), (1 : Int)) : Pt) (((1 : Int), (1 : Int)) : Pt) sE
      (fun i => "f") "boom" 0 0 [] [] (fun p => Except.ok ())).1 rfl,
   (dispatch_catch envBoom2 5 3 0 0 0 0 0 0 9 1 true 1 1 1 1
      (((1 : Int), (1 : Int)) : Pt) (((1 : Int), (1 : Int)) : Pt) sE
      (fun i => "f") "boom" 0 0 [] []
      (fun p => Except.ok ())).2.2.2.2.2.2.2.1 (by decide) rfl⟩

/-! ### Resize guard (C7) -/

/-- The C7 fixture environment: a registered resize callback. -/
def envR : Env := { env0 with resizeCb := some (fun p => Except.ok ()) }

/-- The C7 fixture state: valid stored sizes (3,3). -/
def sR : ScreenState :=
  { s0 with size := ((3 : Int), (3 : Int)), fbSize := ((3 : Int), (3 : Int)) }

/-- C7 counterexample: a resize whose re-queried framebuffer size is the
degenerate (0,0) while the queried logical size (5,5) and all previously
stored sizes are valid: the code stores the bogus (0,0) framebuffer size and
runs the resize callback instead of ignoring the event as claimed. -/
theorem resize_degenerate_cex :
    resizeCallbackEvent envR 7 ((0 : Int), (0 : Int)) ((5 : Int), (5 : Int)) sR =
      (Except.ok true,
        { sR with
          fbSize := ((0 : Int), (0 : Int)),
          size := ((5 : Int), (5 : Int)),
          lastInteraction := 7 },
        [CB.resize]) := by decide

/-- C7 (amended): the guard of `resizeCallbackEvent` compares the previously
stored framebuffer size and the newly queried logical size against exactly
(0,0): when either matches, the event is ignored (state unchanged, no
callback, not-handled); otherwise both queried sizes are stored, even a size
degenerate in one axis or a degenerate queried framebuffer size, and the
resize callback runs.  In particular a reported (0,0) logical size after a
prior valid size leaves the stored sizes unchanged. -/
theorem resize_guard (env : Env) (now : Nat) (fb sz : Pt) (s : ScreenState) :
    (s.fbSize = (((0 : Int), (0 : Int)) : Pt) ∨ sz = (((0 : Int), (0 : Int)) : Pt) →
      resizeCallbackEvent env now fb sz s = (Except.ok false, s, [])) ∧
    (s.fbSize ≠ (((0 : Int), (0 : Int)) : Pt) → sz ≠ (((0 : Int), (0 : Int)) : Pt) →
      (resizeCallbackEvent env now fb sz s).2.1 =
        { s with fbSize := fb, size := sz, lastInteraction := now } ∧
      (resizeCallbackEvent env now fb sz s).2.2 = (resizeEvent env sz).2) := by
  constructor
  · intro h
    unfold resizeCallbackEvent
    rw [if_pos h]
  · intro h1 h2
    have hcond : ¬(s.fbSize = (((0 : Int), (0 : Int)) : Pt) ∨
        sz = (((0 : Int), (0 : Int)) : Pt)) := by
      rintro (hc | hc)
      · exact h1 hc
      · exact h2 hc
    unfold resizeCallbackEvent
    rw [if_neg hcond]
    rcases hre : resizeEvent env sz with ⟨r, l⟩
    cases r <;> simp [hre]

/-- Witness for the amended C7: a reported (0,0) logical size after a valid
stored size is ignored and alters nothing. -/
theorem resize_guard_witness :
    resizeCallbackEvent envR 7 ((1 : Int), (1 : Int)) ((0 : Int), (0 : Int)) sR =
      (Except.ok false, sR, []) :=
  (resize_guard envR 7 ((1 : Int), (1 : Int)) ((0 : Int), (0 : Int)) sR).1 (Or.inr rfl)

/-! ### Disposal and the drag invariant (C8) -/

/-- The C8 failing state: a drag on window 5 is active and 5 is in the focus
path. -/
def s8 : ScreenState :=
  { s0 with dragActive := true, dragWidget := some 5, focusPath := [5, 0] }

/-- C8: evaluating `Screen::disposeWindow` at the failing input (the disposed
window is the current drag widget and sits in the focus path): the focus
path is scrubbed and the drag-widget pointer nulled, but `mDragActive`
remains true, so drag-active no longer implies a non-null drag widget,
against the claimed invariant preservation and the claimed clearing of
drag-active. -/
theorem disposeWindow_leaves_dragActive :
    ((disposeWindow 5 s8 [5, 3]).1.dragActive = true) ∧
    ((disposeWindow 5 s8 [5, 3]).1.dragWidget = none) ∧
    ((disposeWindow 5 s8 [5, 3]).1.focusPath = []) ∧
    ((disposeWindow 5 s8 [5, 3]).2 = [3]) := by decide

end NanoguiScreen
